import Mathlib

/-!
Verification development for the AdobeConnectDL downloader (Go).

The definitions below are a shallow embedding of the downloader's core:
the `sanitize` / `mergeCookies` helpers, the lexical `filepath.Clean` /
`filepath.Join` semantics used by `extractZip`, the `downloadFile`
validation pipeline, the `Download` orchestration of the pool-based
implementation, and the `DownloadPool` submit/process logic.

Filesystem and network effects are made explicit: each modelled operation
takes the outcomes of its I/O (HTTP status, content type, body bytes,
rename/copy success flags) as inputs and returns its observable behaviour
(result record, error, which staged files were removed, which final paths
were written).  I/O primitives themselves (read/write errors mid-stream)
are assumed to succeed; every claim settled here concerns the control
logic layered on top of them.
-/

namespace AdobeConnectDL

/-! ### Generic string helpers (Go `strings` / `bytes` package subset) -/

/-- Boolean list-prefix test: `listPrefixOf p l` is true when `p` is a prefix of `l`.
Models Go `strings.HasPrefix` (on the rune/byte lists). -/
def listPrefixOf {α : Type} [DecidableEq α] : List α → List α → Bool
  | [], _ => true
  | _ :: _, [] => false
  | a :: as, b :: bs => decide (a = b) && listPrefixOf as bs

/-- Boolean contiguous-subsequence test: `listContainsSeq pat l` is true when `pat`
occurs contiguously inside `l`.  Models Go `strings.Contains`. -/
def listContainsSeq {α : Type} [DecidableEq α] (pat : List α) : List α → Bool
  | [] => pat.isEmpty
  | a :: rest => listPrefixOf pat (a :: rest) || listContainsSeq pat rest

/-- Go `strings.Contains s pat` on strings. -/
def strContainsB (s pat : String) : Bool := listContainsSeq pat.data s.data

/-- Go `strings.HasPrefix s pre` on strings. -/
def hasPrefixStr (s pre : String) : Bool := listPrefixOf pre.data s.data

/-- Propositional substring containment, used to state that an error message
carries a given phrase. -/
def strContains (s pat : String) : Prop := ∃ pre post : String, s = pre ++ pat ++ post

/-- The white-space set of Go `unicode.IsSpace` (used by `strings.TrimSpace`). -/
def isUnicodeSpace (c : Char) : Bool :=
  decide ((9 ≤ c.toNat ∧ c.toNat ≤ 13) ∨ c.toNat = 32 ∨ c.toNat = 133 ∨ c.toNat = 160 ∨
    c.toNat = 5760 ∨ (8192 ≤ c.toNat ∧ c.toNat ≤ 8202) ∨ c.toNat = 8232 ∨ c.toNat = 8233 ∨
    c.toNat = 8239 ∨ c.toNat = 8287 ∨ c.toNat = 12288)

/-- Drop leading white-space (left half of Go `strings.TrimSpace`). -/
def trimLeftSpace (l : List Char) : List Char := l.dropWhile isUnicodeSpace

/-- Drop trailing white-space (right half of Go `strings.TrimSpace`). -/
def trimRightSpace (l : List Char) : List Char := (l.reverse.dropWhile isUnicodeSpace).reverse

/-- Go `strings.TrimSpace` on the character list of a string. -/
def trimSpaceChars (l : List Char) : List Char := trimRightSpace (trimLeftSpace l)

/-! ### `sanitize` (part_010 lines 287-297 / part_011 lines 152-162) -/

/-- The character class of the `sanitize` regexp: filesystem-illegal characters
and the control range `\x00`-`\x1F`. -/
def isIllegalChar (c : Char) : Bool :=
  decide (c = '<' ∨ c = '>' ∨ c = ':' ∨ c = '"' ∨ c = '/' ∨ c = '\\' ∨ c = '|' ∨
    c = '?' ∨ c = '*' ∨ c.toNat < 32)

/-- Replace every maximal run of illegal characters by a single space, the effect
of `regexp.ReplaceAllString` with pattern `[<>:"/\\|?*\x00-\x1F]+` and
replacement `" "`.  The boolean argument records whether the previous character
was part of an illegal run. -/
def replaceIllegalRuns : Bool → List Char → List Char
  | _, [] => []
  | inRun, c :: rest =>
    if isIllegalChar c then
      if inRun then replaceIllegalRuns true rest
      else ' ' :: replaceIllegalRuns true rest
    else c :: replaceIllegalRuns false rest

/-- The character-level pipeline of `sanitize`: trim, replace illegal runs
with spaces, trim again. -/
def sanitizeCore (l : List Char) : List Char :=
  trimSpaceChars (replaceIllegalRuns false (trimSpaceChars l))

/-- Model of `sanitize` (part_010): trim, replace illegal runs with spaces,
trim again, and fall back to `"recording"` when nothing remains. -/
def sanitize (name : String) : String :=
  if sanitizeCore name.data = [] then "recording" else ⟨sanitizeCore name.data⟩

/-! ### `mergeCookies` (part_010 lines 146-169 / part_009 lines 37-60) -/

/-- An HTTP cookie as used by `mergeCookies` (name and value). A `nil`
`*http.Cookie` in the Go slice is modelled by `none`. -/
structure Cookie where
  name : String
  value : String
deriving DecidableEq

/-- The loop of `mergeCookies` over the `extra` slice: skip `nil` entries and
entries with an empty or already-seen name, otherwise append the cookie and
record its name as seen. -/
def mergeExtra (seen : List String) : List (Option Cookie) → List Cookie
  | [] => []
  | none :: rest => mergeExtra seen rest
  | some c :: rest =>
    if c.name = "" then mergeExtra seen rest
    else if c.name ∈ seen then mergeExtra seen rest
    else c :: mergeExtra (c.name :: seen) rest

/-- Model of `mergeCookies`: a non-empty session contributes a leading
`BREEZESESSION` cookie whose name is pre-seeded into the seen set. -/
def mergeCookies (session : String) (extra : List (Option Cookie)) : List Cookie :=
  if session = "" then mergeExtra [] extra
  else ⟨"BREEZESESSION", session⟩ :: mergeExtra ["BREEZESESSION"] extra

/-! ### Lexical path semantics: Go `path/filepath.Clean` / `Join` (Unix separators) -/

/-- Split a character list on `'/'`, keeping empty segments (Go's element scan). -/
def splitSlashAux : List Char → List Char → List (List Char)
  | [], cur => [cur.reverse]
  | c :: rest, cur =>
    if c = '/' then cur.reverse :: splitSlashAux rest []
    else splitSlashAux rest (c :: cur)

/-- Split a path into its `'/'`-separated segments. -/
def splitSlash (p : List Char) : List (List Char) := splitSlashAux p []

/-- How `Clean` treats a `".."` element: pop a poppable element, keep stacking
`".."` on `".."`, and drop `".."` entirely at the root. -/
def dotdotStack (rooted : Bool) (stack : List (List Char)) : List (List Char) :=
  match stack with
  | [] => if rooted then [] else [['.', '.']]
  | top :: s2 => if top = ['.', '.'] then ['.', '.'] :: top :: s2 else s2

/-- The element loop of `filepath.Clean`: skip empty and `"."` elements, handle
`".."` via `dotdotStack`, push everything else.  The accumulated stack is kept
reversed and flipped at the end. -/
def cleanStack (rooted : Bool) : List (List Char) → List (List Char) → List (List Char)
  | stack, [] => stack.reverse
  | stack, e :: rest =>
    if e = [] ∨ e = ['.'] then cleanStack rooted stack rest
    else if e = ['.', '.'] then cleanStack rooted (dotdotStack rooted stack) rest
    else cleanStack rooted (e :: stack) rest

/-- Join segments with single `'/'` separators. -/
def joinSegsL : List (List Char) → List Char
  | [] => []
  | [e] => e
  | e :: f :: rest => e ++ '/' :: joinSegsL (f :: rest)

/-- `filepath.Clean` on a character list (Unix rules): shortest lexically
equivalent path, `"."` for an empty result, leading `'/'` preserved. -/
def cleanPathL (p : List Char) : List Char :=
  if p = [] then ['.']
  else if p.head? = some '/' then '/' :: joinSegsL (cleanStack true [] (splitSlash p))
  else if cleanStack false [] (splitSlash p) = [] then ['.']
  else joinSegsL (cleanStack false [] (splitSlash p))

/-- `filepath.Clean` on strings. -/
def filepathClean (p : String) : String := ⟨cleanPathL p.data⟩

/-- `filepath.Join` of two elements: skip empty elements, otherwise join with
`'/'` and `Clean` the result (Go returns `""` when every element is empty). -/
def filepathJoin (a b : String) : String :=
  if a = "" ∧ b = "" then ""
  else if a = "" then ⟨cleanPathL b.data⟩
  else if b = "" then ⟨cleanPathL a.data⟩
  else ⟨cleanPathL (a.data ++ '/' :: b.data)⟩

/-! ### `extractZip` (part_010 lines 299-345 / part_011 lines 164-210) -/

/-- One entry of a ZIP archive as seen by `extractZip`: its stored name and
whether it is a directory entry. -/
structure ZipEntry where
  name : String
  isDir : Bool
deriving DecidableEq

/-- The "unsafe path in zip: " error prefix of `extractZip`. -/
def zipSlipErrText : String := "unsafe path in zip: "

/-- Model of `extractZip`: walk the entries in order; for each entry compute
`target := filepath.Join(dest, name)` and abort with the unsafe-path error
unless `target` has `Clean(dest) + "/"` as a prefix; otherwise record the
target as created/written (directory creation and file writes are summarized
as one trace entry, and the I/O itself is assumed to succeed).  Returns the
list of written targets and the error, if any. -/
def extractZip (dest : String) : List ZipEntry → List String × Option String
  | [] => ([], none)
  | f :: rest =>
    if hasPrefixStr (filepathJoin dest f.name) (filepathClean dest ++ "/") = false then
      ([], some (zipSlipErrText ++ f.name))
    else
      (filepathJoin dest f.name :: (extractZip dest rest).1, (extractZip dest rest).2)

/-! ### `downloadFile` (part_007 lines 584-714, identical checks in part_008) -/

/-- The validation kind of a transfer (`fileKindBinary` / `fileKindZip` /
`fileKindVideo`). -/
inductive FileKind
  | binary
  | zip
  | video
deriving DecidableEq

/-- The classified errors `downloadFile` can return.  `notFound` is the single
Go value `ErrNotFound`, produced both by a 404 status and by HTML detection;
`netFailure` stands for a failed `client.Do`. -/
inductive DlErr
  | netFailure
  | forbidden
  | notFound
  | unexpectedStatus (code : Nat)
  | wrongContent
  | invalidZip
  | tooSmall (bytes : Nat)
deriving DecidableEq

/-- An HTTP response as consumed by `downloadFile`: status code, declared
content type, and the body bytes. -/
structure RespM where
  status : Nat
  contentType : String
  body : List Nat
deriving DecidableEq

/-- `isZipSignature` (part_010 lines 377-380): at least four bytes starting with
`'P' 'K' 0x03 0x04`. -/
def isZipSignature (b : List Nat) : Bool :=
  match b with
  | p :: k :: x :: y :: _ => decide (p = 80 ∧ k = 75 ∧ x = 3 ∧ y = 4)
  | _ => false

/-- The ASCII white-space bytes trimmed by `bytes.TrimSpace` before the leading
`'<'` check (non-ASCII bytes are not relevant to the modelled claims). -/
def isSpaceByte (b : Nat) : Bool := decide ((9 ≤ b ∧ b ≤ 13) ∨ b = 32)

/-- `isHTMLResponse` (part_010 lines 367-375): lower-cased content type contains
`"text/html"`, or the space-trimmed chunk starts with `'<'` (byte 60). -/
def isHTMLResponse (contentType : String) (chunk : List Nat) : Bool :=
  strContainsB ⟨contentType.data.map Char.toLower⟩ "text/html" ||
    (match chunk.dropWhile isSpaceByte with
     | [] => false
     | b :: _ => decide (b = 60))

/-- Model of `downloadFile`'s validation pipeline on a received response: the
status checks (403 / 404 / ≥300), the early video content-type check, the
4-KiB head sniffing (HTML detection, then the ZIP signature check guarded by
`n >= 4`), and the final minimum-size check for videos.  On success it
returns the total number of bytes written (head bytes plus the streamed
remainder, i.e. the body length). -/
def downloadFile (kind : FileKind) (resp : RespM) : Except DlErr Nat :=
  if resp.status = 403 then .error .forbidden
  else if resp.status = 404 then .error .notFound
  else if 300 ≤ resp.status then .error (.unexpectedStatus resp.status)
  else if kind = .video ∧ strContainsB resp.contentType "text/html" = true then
    .error .wrongContent
  else if isHTMLResponse resp.contentType (resp.body.take 4096) = true then .error .notFound
  else if kind = .zip ∧ 4 ≤ (resp.body.take 4096).length ∧
      isZipSignature (resp.body.take 4096) = false then
    .error .invalidZip
  else if kind = .video ∧ resp.body.length < 1024 then
    .error (.tooSmall resp.body.length)
  else .ok resp.body.length

/-! ### `fetchPageInfo` (part_007 lines 503-565) -/

/-- Errors of `fetchPageInfo`: a transport failure, the `ErrAuthRequired`
classification for statuses 500/401/403, or a generic status error. -/
inductive PageErr
  | netFailure
  | authRequired
  | unexpectedStatus (code : Nat)
deriving DecidableEq

/-- The fields extracted from the recording page (cookies are handled by
`mergeCookies` and are not needed by the orchestration claims). -/
structure PageInfoM where
  title : String
  videoSrc : String
  vttPath : String
deriving DecidableEq

/-- Model of `fetchPageInfo`'s classification: transport error, then statuses
500/401/403 mapped to `ErrAuthRequired`, then any status ≥ 400 mapped to a
generic error; otherwise the extracted page info is returned. -/
def fetchPageInfo (netErr : Bool) (status : Nat) (extracted : PageInfoM) :
    Except PageErr PageInfoM :=
  if netErr then .error .netFailure
  else if status = 500 ∨ status = 401 ∨ status = 403 then .error .authRequired
  else if 400 ≤ status then .error (.unexpectedStatus status)
  else .ok extracted

/-! ### `Download` orchestration (part_007 lines 110-460) -/

/-- Source text of `ErrAuthRequired`. -/
def errAuthRequiredText : String :=
  "authentication required: this recording requires a valid session token"

/-- The guidance appended to the auth error by `Download` (part_007 lines 204-211). -/
def authGuidanceText : String :=
  "\n\nTo access private recordings, you need to include a session token in the URL.\nExample: https://your-domain.adobeconnect.com/recording-id/?session=YOUR_SESSION_TOKEN\n\nTo get a session token:\n1. Log into Adobe Connect in your browser\n2. Open the recording page\n3. Copy the URL from your browser\x27s address bar (it should contain ?session=...)\n4. Use that complete URL with this tool"

/-- The full terminal error message of the auth-required return. -/
def authErrorMessage : String := errAuthRequiredText ++ authGuidanceText

/-- Source text of `ErrDirectoryExists`. -/
def dirExistsText : String := "output directory already exists"

/-- The terminal error when neither the MP4 nor the ZIP was obtained. -/
def noAssetsText : String := "no assets could be downloaded (MP4 and ZIP unavailable)"

/-- Warning recorded when the ZIP download classified as `ErrNotFound`. -/
def zipNotAvailWarn : String := "Raw recording ZIP not available"

/-- Warning recorded when the ZIP download classified as `ErrInvalidZip`. -/
def zipInvalidWarn : String := "ZIP response was invalid"

/-- Warning recorded when no MP4 rendition ended up in place. -/
def mp4NotAvailWarn : String := "MP4 rendition not available"

/-- Terminal error of a failed `os.MkdirAll` on the output directory (the
wrapped OS error is abstracted). -/
def createDirErrText : String := "create output dir: error"

/-- Warning recorded when `writeMetadata` fails (the wrapped error is
abstracted). -/
def metadataWriteWarnText : String := "write metadata: error"

/-- The outcomes of the I/O performed by one `Download` run, provided as
inputs to the model: the page fetch, the ZIP and MP4 transfers, the state of
the output directory, and the success of each rename/copy/extract/metadata
step. -/
structure DownloadEnvM where
  id : String
  outputDir : String
  overwrite : Bool
  pageNetErr : Bool
  pageStatus : Nat
  page : PageInfoM
  zipNetErr : Bool
  zipResp : RespM
  mp4NetErr : Bool
  mp4Resp : RespM
  dirNonEmpty : Bool
  mkdirOk : Bool
  zipRenameOk : Bool
  zipCopyOk : Bool
  mp4RenameOk : Bool
  mp4CopyOk : Bool
  extractOk : Bool
  metadataWriteOk : Bool

/-- The `Result` record of `Download`. -/
structure ResultM where
  Title : String
  RootDir : String
  MP4Path : String
  ZipPath : String
  ExtractedDir : String
  Warnings : List String
deriving DecidableEq

/-- The observable behaviour of one `Download` run: the result record, the
terminal error (if any), whether `os.Remove(tempZipPath)` was invoked, whether
the orchestrator waited on `zipDownloadDone`, whether the output directory was
created, and the final paths written under it. -/
structure DownloadOutcomeM where
  result : ResultM
  err : Option String
  removedTempZip : Bool
  waitedZipDone : Bool
  createdRootDir : Bool
  finalWrites : List String
deriving DecidableEq

/-- The combined outcome of the ZIP download (network failure folded into a
`DlErr`). -/
def zipOutcomeOf (env : DownloadEnvM) : Except DlErr Nat :=
  if env.zipNetErr then .error .netFailure else downloadFile .zip env.zipResp

/-- The combined outcome of the MP4 download. -/
def mp4OutcomeOf (env : DownloadEnvM) : Except DlErr Nat :=
  if env.mp4NetErr then .error .netFailure else downloadFile .video env.mp4Resp

/-- Whether the MP4 ends up installed at its final path: a video URL must have
been discovered, the download must succeed, and the rename (or the copy
fallback) must succeed (part_007 lines 246-416). -/
def mp4Installed (env : DownloadEnvM) (info : PageInfoM) : Bool :=
  if info.videoSrc = "" then false
  else
    match mp4OutcomeOf env with
    | .ok _ => env.mp4RenameOk || env.mp4CopyOk
    | .error _ => false

/-- The observable state after the ZIP handling block (part_007 lines 280-310):
whether the final ZIP path was installed, the warning recorded (only for the
`ErrNotFound` / `ErrInvalidZip` classifications), whether `zipErr` ended
non-nil, and whether the staged temp file was removed. -/
structure ZipPhaseRes where
  pathSet : Bool
  warn : Option String
  failed : Bool
  removedTemp : Bool
deriving DecidableEq

/-- The ZIP handling block: on a download error, classify it into a warning
(or none for generic failures) and remove the temp file; on success, rename
into place, falling back to copy+delete, with a failed copy leaving `zipErr`
set and no warning. -/
def zipPhase (out : Except DlErr Nat) (renameOk copyOk : Bool) : ZipPhaseRes :=
  match out with
  | .error e =>
    { pathSet := false,
      warn := if e = DlErr.notFound then some zipNotAvailWarn
              else if e = DlErr.invalidZip then some zipInvalidWarn
              else none,
      failed := true, removedTemp := true }
  | .ok _ =>
    if renameOk then { pathSet := true, warn := none, failed := false, removedTemp := false }
    else if copyOk then { pathSet := true, warn := none, failed := false, removedTemp := true }
    else { pathSet := false, warn := none, failed := true, removedTemp := false }

/-- The final ZIP path of the result (empty when not installed). -/
def zipPathVal (rootDir : String) (zp : ZipPhaseRes) : String :=
  if zp.pathSet then filepathJoin rootDir "raw.zip" else ""

/-- The final MP4 path of the result (empty when not installed). -/
def mp4PathVal (rootDir : String) (ms : Bool) : String :=
  if ms then filepathJoin rootDir "recording.mp4" else ""

/-- The `ExtractedDir` field: set when extraction ran (zipErr nil and ZIP path
set, part_007 line 322) and succeeded. -/
def extractedVal (rootDir : String) (zp : ZipPhaseRes) (extractOk : Bool) : String :=
  if zp.failed = false ∧ zipPathVal rootDir zp ≠ "" ∧ extractOk = true then
    filepathJoin rootDir "raw"
  else ""

/-- The warnings accumulated before the metadata step: the ZIP classification
warning (if any) followed by the MP4-missing warning (part_007 lines 283-288
and 419-421). -/
def baseWarnings (rootDir : String) (zp : ZipPhaseRes) (ms : Bool) : List String :=
  zp.warn.toList ++ (if mp4PathVal rootDir ms = "" then [mp4NotAvailWarn] else [])

/-- The final paths written under the output directory by the main flow
(extraction's sub-writes are summarized by the extraction directory). -/
def baseWrites (rootDir : String) (zp : ZipPhaseRes) (ms : Bool) : List String :=
  (if zp.pathSet then [filepathJoin rootDir "raw.zip"] else []) ++
    (if zp.failed = false ∧ zipPathVal rootDir zp ≠ "" then [filepathJoin rootDir "raw"] else []) ++
    (if ms then [filepathJoin rootDir "recording.mp4"] else [])

/-- Assemble the outcome of the main flow (after the output directory was
created): either the fatal empty-result error (part_007 lines 450-452) or
success, with a metadata-write failure downgraded to a warning (lines 454-457).
The VTT/caption processing (lines 426-448) changes no `Result` field and no
terminal error, so it contributes nothing observable here. -/
def assembleMain (rootDir title : String) (zp : ZipPhaseRes) (ms : Bool)
    (extractOk metaOk : Bool) : DownloadOutcomeM :=
  if mp4PathVal rootDir ms = "" ∧ zipPathVal rootDir zp = "" then
    { result := { Title := title, RootDir := rootDir, MP4Path := mp4PathVal rootDir ms,
                  ZipPath := zipPathVal rootDir zp,
                  ExtractedDir := extractedVal rootDir zp extractOk,
                  Warnings := baseWarnings rootDir zp ms },
      err := some noAssetsText, removedTempZip := zp.removedTemp, waitedZipDone := true,
      createdRootDir := true, finalWrites := baseWrites rootDir zp ms }
  else
    { result := { Title := title, RootDir := rootDir, MP4Path := mp4PathVal rootDir ms,
                  ZipPath := zipPathVal rootDir zp,
                  ExtractedDir := extractedVal rootDir zp extractOk,
                  Warnings := baseWarnings rootDir zp ms ++
                    (if metaOk = true then [] else [metadataWriteWarnText]) },
      err := none, removedTempZip := zp.removedTemp, waitedZipDone := true,
      createdRootDir := true,
      finalWrites := baseWrites rootDir zp ms ++
        (if metaOk = true then [filepathJoin rootDir "metadata.json"] else []) }

/-- `rootDir := filepath.Join(baseOutputDir, title)` with the `"."` default. -/
def rootDirOf (env : DownloadEnvM) (title : String) : String :=
  filepathJoin (if env.outputDir = "" then "." else env.outputDir) title

/-- The main flow of `Download` once the output directory exists. -/
def mainFlow (env : DownloadEnvM) (title : String) (info : PageInfoM) : DownloadOutcomeM :=
  assembleMain (rootDirOf env title) title
    (zipPhase (zipOutcomeOf env) env.zipRenameOk env.zipCopyOk)
    (mp4Installed env info) env.extractOk env.metadataWriteOk

/-- The empty `Result{}` returned on early exits. -/
def emptyResultM : ResultM :=
  { Title := "", RootDir := "", MP4Path := "", ZipPath := "", ExtractedDir := "",
    Warnings := [] }

/-- The outcome of the `ErrAuthRequired` early return (part_007 lines 200-212):
the staged temp ZIP is removed, the in-flight ZIP download is awaited, no
output directory is created, and the guidance-bearing error is returned. -/
def authOutcome : DownloadOutcomeM :=
  { result := emptyResultM, err := some authErrorMessage, removedTempZip := true,
    waitedZipDone := true, createdRootDir := false, finalWrites := [] }

/-- The `Download` steps after the title is resolved: the non-empty-directory
check without overwrite (part_007 lines 218-226), the `MkdirAll`
(lines 228-232), then the main flow. -/
def downloadMainM (env : DownloadEnvM) (title : String) (info : PageInfoM) :
    DownloadOutcomeM :=
  if env.overwrite = false ∧ env.dirNonEmpty = true then
    { result := { Title := title, RootDir := rootDirOf env title, MP4Path := "",
                  ZipPath := "", ExtractedDir := "", Warnings := [] },
      err := some (dirExistsText ++ ": " ++ rootDirOf env title),
      removedTempZip := true, waitedZipDone := true, createdRootDir := false,
      finalWrites := [] }
  else if env.mkdirOk = false then
    { result := emptyResultM, err := some createDirErrText, removedTempZip := true,
      waitedZipDone := true, createdRootDir := false, finalWrites := [] }
  else mainFlow env title info

/-- Model of `Download` (part_007, the pool/staged implementation designated
authoritative by the design notes): page fetch classification first; an
`ErrAuthRequired` page fetch aborts with the guidance message; any other page
error continues with the zero-valued page info (so no video URL is known);
otherwise the page title, when non-empty, replaces the recording id as the
sanitized directory name. -/
def Download (env : DownloadEnvM) : DownloadOutcomeM :=
  match fetchPageInfo env.pageNetErr env.pageStatus env.page with
  | .error .authRequired => authOutcome
  | .error _ => downloadMainM env (sanitize env.id) { title := "", videoSrc := "", vttPath := "" }
  | .ok info =>
      downloadMainM env (if info.title ≠ "" then sanitize info.title else sanitize env.id) info

/-- The resolved output-directory title of a run. -/
def resolvedTitle (env : DownloadEnvM) : String :=
  match fetchPageInfo env.pageNetErr env.pageStatus env.page with
  | .ok info => if info.title ≠ "" then sanitize info.title else sanitize env.id
  | .error _ => sanitize env.id

/-- Whether the page fetch of a run classified as `ErrAuthRequired`. -/
def pageAuthFailed (env : DownloadEnvM) : Bool :=
  match fetchPageInfo env.pageNetErr env.pageStatus env.page with
  | .error .authRequired => true
  | _ => false

/-- The page info the orchestration proceeds with: the extracted info on a
successful fetch, the zero value otherwise (as in Go, where the error case
leaves `pageInfo{}`). -/
def pageInfoOf (env : DownloadEnvM) : PageInfoM :=
  match fetchPageInfo env.pageNetErr env.pageStatus env.page with
  | .ok info => info
  | .error _ => { title := "", videoSrc := "", vttPath := "" }

/-! ### `DownloadPool` (internal/downloader pool: `Submit` and `processJob`) -/

/-- The error text of a `context.Context` already cancelled when a job is
picked up. -/
def ctxCanceledText : String := "context canceled"

/-- A pool job as relevant to `processJob`: whether its context is already
cancelled and whether it is an extraction job. -/
structure PoolJob where
  ctxCancelled : Bool
  isExtract : Bool
deriving DecidableEq

/-- The observable behaviour of one `processJob` execution: the arguments
passed to `OnComplete` (in invocation order) and the counter increments. -/
structure JobRunRes where
  callbackArgs : List (Option String)
  completedInc : Nat
  failedInc : Nat
deriving DecidableEq

/-- Model of `processJob`: a cancelled context fails the job immediately
without I/O, invoking the callback once with the context error; otherwise the
job body runs (its error, if any, supplied as `execErr`) and the callback is
invoked once with the result. -/
def processJob (job : PoolJob) (execErr : Option String) : JobRunRes :=
  if job.ctxCancelled then
    { callbackArgs := [some ctxCanceledText], completedInc := 0, failedInc := 1 }
  else
    match execErr with
    | some e => { callbackArgs := [some e], completedInc := 0, failedInc := 1 }
    | none => { callbackArgs := [none], completedInc := 1, failedInc := 0 }

/-- The pool state seen by `Submit`: the stopped flag and the queued jobs. -/
structure PoolStateM where
  stopped : Bool
  queue : List PoolJob
deriving DecidableEq

/-- Model of `DownloadPool.Submit`: a stopped pool rejects the job (returns
`false`, nothing enqueued); otherwise the job is sent on the channel — when the
buffer is full the send blocks until space frees up, so the job is always
enqueued, modelled as an unconditional append. -/
def Submit (p : PoolStateM) (job : PoolJob) : PoolStateM × Bool :=
  if p.stopped then (p, false)
  else ({ p with queue := p.queue ++ [job] }, true)

/-- How many times the callback of a job handed to `Submit` fires: an accepted
job is consumed by exactly one worker, which runs `processJob` on it once; a
rejected job is never processed. -/
def submittedCallbackCount (p : PoolStateM) (job : PoolJob) (execErr : Option String) : Nat :=
  if (Submit p job).2 then (processJob job execErr).callbackArgs.length else 0

/-! ### Concrete runs used to exercise the theorems -/

/-- A run where the ZIP download fails with a generic 403 while the video
succeeds and is renamed into place. -/
def envZipForbidden : DownloadEnvM :=
  { id := "r1", outputDir := "out", overwrite := true,
    pageNetErr := false, pageStatus := 200,
    page := { title := "Lecture", videoSrc := "https://h/v", vttPath := "" },
    zipNetErr := false, zipResp := { status := 403, contentType := "", body := [] },
    mp4NetErr := false,
    mp4Resp := { status := 200, contentType := "video/mp4", body := List.replicate 1024 7 },
    dirNonEmpty := false, mkdirOk := true,
    zipRenameOk := true, zipCopyOk := true,
    mp4RenameOk := true, mp4CopyOk := true,
    extractOk := true, metadataWriteOk := true }

/-- A run where the ZIP endpoint answers 404 while the video succeeds. -/
def envZipNotFound : DownloadEnvM :=
  { envZipForbidden with zipResp := { status := 404, contentType := "", body := [] } }

/-- A run whose page fetch answers 401. -/
def envAuth401 : DownloadEnvM :=
  { envZipForbidden with pageStatus := 401 }

/-- A run against a pre-existing, non-empty output directory without overwrite. -/
def envDirConflict : DownloadEnvM :=
  { envZipForbidden with overwrite := false, dirNonEmpty := true }

/-- A run whose ZIP response body is the two bytes `'P' 'K'` (shorter than the
signature) and whose page exposes no video. -/
def envZipShortBody : DownloadEnvM :=
  { id := "r1", outputDir := "out", overwrite := true,
    pageNetErr := false, pageStatus := 200,
    page := { title := "Lecture", videoSrc := "", vttPath := "" },
    zipNetErr := false,
    zipResp := { status := 200, contentType := "application/zip", body := [80, 75] },
    mp4NetErr := false, mp4Resp := { status := 200, contentType := "", body := [] },
    dirNonEmpty := false, mkdirOk := true,
    zipRenameOk := true, zipCopyOk := true,
    mp4RenameOk := true, mp4CopyOk := true,
    extractOk := true, metadataWriteOk := true }

/-- A run whose ZIP response body has five bytes and a wrong signature. -/
def envZipBadSig : DownloadEnvM :=
  { envZipShortBody with
    zipResp := { status := 200, contentType := "application/zip", body := [1, 2, 3, 4, 5] } }

/-! ## Auxiliary list and trimming facts -/

theorem mem_of_mem_dropWhile {p : Char → Bool} {c : Char} {l : List Char}
    (h : c ∈ l.dropWhile p) : c ∈ l :=
  (List.dropWhile_sublist p).subset h

theorem head?_dropWhile {p : Char → Bool} {c : Char} :
    ∀ (l : List Char), (l.dropWhile p).head? = some c → p c = false := by
  intro l
  induction l with
  | nil => intro h; simp [List.dropWhile] at h
  | cons a t ih =>
    intro h
    rw [List.dropWhile_cons] at h
    by_cases hp : p a = true
    · rw [if_pos hp] at h; exact ih h
    · rw [if_neg hp] at h
      simp only [List.head?_cons, Option.some.injEq] at h
      subst h
      simpa using hp

theorem dropWhile_eq_self_of_head {p : Char → Bool} (l : List Char)
    (h : ∀ c, l.head? = some c → p c = false) : l.dropWhile p = l := by
  cases l with
  | nil => rfl
  | cons a t =>
    have ha := h a rfl
    rw [List.dropWhile_cons, if_neg (by simp [ha])]

theorem trimRight_prefixFact (l : List Char) : ∃ t, trimRightSpace l ++ t = l := by
  obtain ⟨t, ht⟩ := List.dropWhile_suffix (l := l.reverse) isUnicodeSpace
  refine ⟨t.reverse, ?_⟩
  have h2 := congrArg List.reverse ht
  rw [List.reverse_append, List.reverse_reverse] at h2
  exact h2

theorem trimSpace_head (l : List Char) {c : Char}
    (h : (trimSpaceChars l).head? = some c) : isUnicodeSpace c = false := by
  obtain ⟨t, ht⟩ := trimRight_prefixFact (trimLeftSpace l)
  have hh : (trimLeftSpace l).head? = some c := by
    cases hts : trimSpaceChars l with
    | nil => rw [hts] at h; cases h
    | cons x xs =>
      rw [hts] at h
      rw [← ht, show trimRightSpace (trimLeftSpace l) = trimSpaceChars l from rfl, hts]
      simpa using h
  exact head?_dropWhile l hh

theorem trimSpace_getLast (l : List Char) {c : Char}
    (h : (trimSpaceChars l).getLast? = some c) : isUnicodeSpace c = false := by
  have h2 := h
  rw [show trimSpaceChars l = ((trimLeftSpace l).reverse.dropWhile isUnicodeSpace).reverse from
    rfl, List.getLast?_reverse] at h2
  exact head?_dropWhile _ h2

theorem trimSpace_eq_self (l : List Char)
    (h1 : ∀ c, l.head? = some c → isUnicodeSpace c = false)
    (h2 : ∀ c, l.getLast? = some c → isUnicodeSpace c = false) :
    trimSpaceChars l = l := by
  have hl : trimLeftSpace l = l := dropWhile_eq_self_of_head l h1
  show trimRightSpace (trimLeftSpace l) = l
  rw [hl]
  show (l.reverse.dropWhile isUnicodeSpace).reverse = l
  rw [dropWhile_eq_self_of_head l.reverse
    (fun c hc => h2 c (by rwa [List.head?_reverse] at hc)), List.reverse_reverse]

theorem mem_of_mem_trimSpace {c : Char} {l : List Char} (h : c ∈ trimSpaceChars l) : c ∈ l :=
  mem_of_mem_dropWhile (List.mem_reverse.mp (mem_of_mem_dropWhile (List.mem_reverse.mp h)))

/-! ## Facts about `sanitize` -/

theorem mem_replaceIllegalRuns {c : Char} :
    ∀ (b : Bool) (l : List Char), c ∈ replaceIllegalRuns b l → isIllegalChar c = false := by
  intro b l
  induction l generalizing b with
  | nil => intro h; simp [replaceIllegalRuns] at h
  | cons a t ih =>
    intro h
    by_cases ha : isIllegalChar a = true
    · rw [replaceIllegalRuns, if_pos (by simp [ha])] at h
      cases b with
      | true => exact ih _ (by simpa using h)
      | false =>
        rcases List.mem_cons.mp (by simpa using h) with hc | hc
        · subst hc; decide
        · exact ih _ hc
    · rw [replaceIllegalRuns, if_neg (by simp [ha])] at h
      rcases List.mem_cons.mp h with hc | hc
      · subst hc; simpa using ha
      · exact ih _ hc

theorem replaceIllegalRuns_id (l : List Char) (hl : ∀ c ∈ l, isIllegalChar c = false) :
    ∀ b, replaceIllegalRuns b l = l := by
  induction l with
  | nil => intro b; rfl
  | cons a t ih =>
    intro b
    have ha : isIllegalChar a = false := hl a (List.mem_cons_self a t)
    rw [replaceIllegalRuns, if_neg (by simp [ha]),
      ih (fun c hc => hl c (List.mem_cons_of_mem a hc)) false]

theorem sanitize_data (s : String) (h : sanitizeCore s.data ≠ []) :
    (sanitize s).data = sanitizeCore s.data := by
  rw [sanitize, if_neg h]

/-- Claim C9: for every input, `sanitize` yields a non-empty name with no
leading or trailing white-space and no filesystem-illegal or control
character; inputs that reduce to nothing yield the fixed fallback
`"recording"`; and `sanitize` is idempotent. -/
theorem claim_C9 (s : String) :
    sanitize s ≠ ""
    ∧ (∀ c, (sanitize s).data.head? = some c → isUnicodeSpace c = false)
    ∧ (∀ c, (sanitize s).data.getLast? = some c → isUnicodeSpace c = false)
    ∧ (∀ c ∈ (sanitize s).data, isIllegalChar c = false)
    ∧ (sanitizeCore s.data = [] → sanitize s = "recording")
    ∧ sanitize (sanitize s) = sanitize s := by
  by_cases h : sanitizeCore s.data = []
  · have hs : sanitize s = "recording" := by rw [sanitize, if_pos h]
    rw [hs]
    refine ⟨by decide, ?_, ?_, by decide, fun _ => rfl, by decide⟩
    · intro c hc
      rw [show ("recording" : String).data.head? = some 'r' from rfl] at hc
      injection hc with hc
      subst hc
      decide
    · intro c hc
      rw [show ("recording" : String).data.getLast? = some 'g' from rfl] at hc
      injection hc with hc
      subst hc
      decide
  · have hdata : (sanitize s).data = sanitizeCore s.data := sanitize_data s h
    have hlegal : ∀ c ∈ sanitizeCore s.data, isIllegalChar c = false := fun c hc =>
      mem_replaceIllegalRuns false _ (mem_of_mem_trimSpace hc)
    have hhead : ∀ c, (sanitizeCore s.data).head? = some c → isUnicodeSpace c = false :=
      fun c hc => trimSpace_head _ hc
    have hlast : ∀ c, (sanitizeCore s.data).getLast? = some c → isUnicodeSpace c = false :=
      fun c hc => trimSpace_getLast _ hc
    refine ⟨?_, ?_, ?_, ?_, fun h2 => absurd h2 h, ?_⟩
    · intro he
      exact h (by simpa [hdata] using congrArg String.data he)
    · intro c hc; exact hhead c (by rwa [hdata] at hc)
    · intro c hc; exact hlast c (by rwa [hdata] at hc)
    · intro c hc; exact hlegal c (by rwa [hdata] at hc)
    · have htrim : trimSpaceChars (sanitizeCore s.data) = sanitizeCore s.data :=
        trimSpace_eq_self _ hhead hlast
      have hcore : sanitizeCore (sanitize s).data = sanitizeCore s.data := by
        rw [hdata]
        show trimSpaceChars (replaceIllegalRuns false (trimSpaceChars (sanitizeCore s.data))) =
          sanitizeCore s.data
        rw [htrim, replaceIllegalRuns_id _ hlegal false, htrim]
      rw [show sanitize (sanitize s) = if sanitizeCore (sanitize s).data = [] then "recording"
            else ⟨sanitizeCore (sanitize s).data⟩ from rfl, hcore, if_neg h]
      rw [sanitize, if_neg h]

/-- Witness for C9: an input consisting only of white-space and illegal
characters collapses to the fallback name. -/
theorem claim_C9_witness : sanitize "  <??>  " = "recording" :=
  (claim_C9 "  <??>  ").2.2.2.2.1 (by decide)

/-! ## Facts about the lexical path semantics -/

theorem dotdotStack_ne_nil (rooted : Bool) (stack : List (List Char))
    (hs : ∀ x ∈ stack, x ≠ []) : ∀ x ∈ dotdotStack rooted stack, x ≠ [] := by
  cases stack with
  | nil =>
    intro x hx
    replace hx : x ∈ (if rooted = true then ([] : List (List Char)) else [['.', '.']]) := hx
    cases rooted with
    | true => simp at hx
    | false =>
      simp only [if_neg Bool.false_ne_true, List.mem_singleton] at hx
      subst hx
      simp
  | cons top s2 =>
    intro x hx
    replace hx : x ∈ (if top = ['.', '.'] then ['.', '.'] :: top :: s2 else s2) := hx
    by_cases ht : top = ['.', '.']
    · rw [if_pos ht] at hx
      rcases List.mem_cons.mp hx with hx | hx
      · subst hx; simp
      · exact hs x hx
    · rw [if_neg ht] at hx
      exact hs x (List.mem_cons_of_mem top hx)

theorem cleanStack_ne_nil (rooted : Bool) :
    ∀ (elems stack : List (List Char)), (∀ x ∈ stack, x ≠ []) →
      ∀ x ∈ cleanStack rooted stack elems, x ≠ [] := by
  intro elems
  induction elems with
  | nil =>
    intro stack hs x hx
    rw [cleanStack] at hx
    exact hs x (List.mem_reverse.mp hx)
  | cons e rest ih =>
    intro stack hs x hx
    rw [cleanStack] at hx
    by_cases h1 : e = [] ∨ e = ['.']
    · rw [if_pos h1] at hx; exact ih stack hs x hx
    · rw [if_neg h1] at hx
      by_cases h2 : e = ['.', '.']
      · rw [if_pos h2] at hx
        exact ih _ (dotdotStack_ne_nil rooted stack hs) x hx
      · rw [if_neg h2] at hx
        refine ih (e :: stack) ?_ x hx
        intro y hy
        rcases List.mem_cons.mp hy with hy | hy
        · subst hy; intro he; exact h1 (Or.inl he)
        · exact hs y hy

theorem joinSegsL_ne_nil (s : List Char) (ss : List (List Char)) (hs : s ≠ []) :
    joinSegsL (s :: ss) ≠ [] := by
  cases ss with
  | nil => simpa [joinSegsL] using hs
  | cons f r => simp [joinSegsL]

theorem cleanPathL_ne_nil (p : List Char) : cleanPathL p ≠ [] := by
  unfold cleanPathL
  split
  · simp
  · split
    · simp
    · split
      · simp
      · rename_i h1 h2 h3
        cases hcs : cleanStack false [] (splitSlash p) with
        | nil => exact absurd hcs h3
        | cons s ss =>
          have hsne : s ≠ [] :=
            cleanStack_ne_nil false (splitSlash p) [] (by simp) s
              (by rw [hcs]; exact List.mem_cons_self s ss)
          exact joinSegsL_ne_nil s ss hsne

theorem stringMk_ne_empty {l : List Char} (h : l ≠ []) : (⟨l⟩ : String) ≠ "" := by
  intro he
  exact h (congrArg String.data he)

theorem filepathJoin_ne_empty (a b : String) (h : ¬(a = "" ∧ b = "")) :
    filepathJoin a b ≠ "" := by
  unfold filepathJoin
  rw [if_neg h]
  split
  · exact stringMk_ne_empty (cleanPathL_ne_nil _)
  · split
    · exact stringMk_ne_empty (cleanPathL_ne_nil _)
    · exact stringMk_ne_empty (cleanPathL_ne_nil _)

/-! ## Claim C8: `extractZip` refuses path-traversal entries -/

/-- Claim C8: every written target of `extractZip` lies under the destination
directory; an entry whose joined target escapes the destination makes the
extraction return the unsafe-path error, and that entry's target is never
among the written paths; and whenever the extraction errors, some escaping
entry is responsible and the error carries its name. -/
theorem claim_C8 (dest : String) (entries : List ZipEntry) :
    (∀ w ∈ (extractZip dest entries).1, hasPrefixStr w (filepathClean dest ++ "/") = true)
    ∧ (∀ f ∈ entries,
        hasPrefixStr (filepathJoin dest f.name) (filepathClean dest ++ "/") = false →
          (extractZip dest entries).2.isSome = true
          ∧ filepathJoin dest f.name ∉ (extractZip dest entries).1)
    ∧ ((extractZip dest entries).2.isSome = true →
        ∃ f ∈ entries,
          hasPrefixStr (filepathJoin dest f.name) (filepathClean dest ++ "/") = false
          ∧ (extractZip dest entries).2 = some (zipSlipErrText ++ f.name)) := by
  induction entries with
  | nil => exact ⟨by simp [extractZip], by simp, by simp [extractZip]⟩
  | cons f rest ih =>
    obtain ⟨ih1, ih2, ih3⟩ := ih
    by_cases hf : hasPrefixStr (filepathJoin dest f.name) (filepathClean dest ++ "/") = false
    · have he : extractZip dest (f :: rest) = ([], some (zipSlipErrText ++ f.name)) := by
        rw [extractZip, if_pos hf]
      refine ⟨?_, ?_, ?_⟩
      · rw [he]; intro w hw; simp at hw
      · intro g _ _
        rw [he]
        exact ⟨rfl, by simp⟩
      · intro _
        exact ⟨f, List.mem_cons_self f rest, hf, by rw [he]⟩
    · have hf2 : hasPrefixStr (filepathJoin dest f.name) (filepathClean dest ++ "/") = true := by
        rcases Bool.eq_false_or_eq_true
          (hasPrefixStr (filepathJoin dest f.name) (filepathClean dest ++ "/")) with h | h
        · exact h
        · exact absurd h hf
      have he : extractZip dest (f :: rest) =
          (filepathJoin dest f.name :: (extractZip dest rest).1, (extractZip dest rest).2) := by
        rw [extractZip, if_neg (by simp [hf2])]
      refine ⟨?_, ?_, ?_⟩
      · rw [he]
        intro w hw
        rcases List.mem_cons.mp hw with h | h
        · subst h; exact hf2
        · exact ih1 w h
      · intro g hg hgf
        rcases List.mem_cons.mp hg with h | h
        · subst h
          rw [hgf] at hf2
          cases hf2
        · obtain ⟨hsome, hnot⟩ := ih2 g h hgf
          rw [he]
          refine ⟨hsome, ?_⟩
          intro hmem
          rcases List.mem_cons.mp hmem with h2 | h2
          · rw [h2] at hgf
            rw [hgf] at hf2
            cases hf2
          · exact hnot h2
      · rw [he]
        intro hsome
        obtain ⟨g, hg, hgf, hval⟩ := ih3 hsome
        exact ⟨g, List.mem_cons_of_mem f hg, hgf, hval⟩

/-- Witness for C8: a classic zip-slip entry `"../evil"` aborts the extraction
and its target is not written. -/
theorem claim_C8_witness :
    (extractZip "out" [{ name := "../evil", isDir := false }]).2.isSome = true
    ∧ filepathJoin "out" "../evil" ∉
        (extractZip "out" [{ name := "../evil", isDir := false }]).1 :=
  (claim_C8 "out" [{ name := "../evil", isDir := false }]).2.1
    { name := "../evil", isDir := false } (List.mem_singleton.mpr rfl) (by decide)

/-! ## Claim C10: `mergeCookies` -/

theorem mergeExtra_names (l : List (Option Cookie)) :
    ∀ seen, ∀ c ∈ mergeExtra seen l, c.name ∉ seen ∧ c.name ≠ "" := by
  induction l with
  | nil => intro seen c hc; simp [mergeExtra] at hc
  | cons o rest ih =>
    intro seen c hc
    cases o with
    | none => exact ih seen c hc
    | some d =>
      rw [mergeExtra] at hc
      by_cases h1 : d.name = ""
      · rw [if_pos h1] at hc; exact ih seen c hc
      · rw [if_neg h1] at hc
        by_cases h2 : d.name ∈ seen
        · rw [if_pos h2] at hc; exact ih seen c hc
        · rw [if_neg h2] at hc
          rcases List.mem_cons.mp hc with h | h
          · subst h; exact ⟨h2, h1⟩
          · obtain ⟨hn, he⟩ := ih (d.name :: seen) c h
            exact ⟨fun hmem => hn (List.mem_cons_of_mem _ hmem), he⟩

theorem mergeExtra_nodup (l : List (Option Cookie)) :
    ∀ seen, ((mergeExtra seen l).map Cookie.name).Nodup := by
  induction l with
  | nil => intro seen; simp [mergeExtra]
  | cons o rest ih =>
    intro seen
    cases o with
    | none => exact ih seen
    | some d =>
      rw [mergeExtra]
      by_cases h1 : d.name = ""
      · rw [if_pos h1]; exact ih seen
      · rw [if_neg h1]
        by_cases h2 : d.name ∈ seen
        · rw [if_pos h2]; exact ih seen
        · rw [if_neg h2]
          rw [List.map_cons, List.nodup_cons]
          refine ⟨?_, ih (d.name :: seen)⟩
          intro hmem
          obtain ⟨c, hc, hname⟩ := List.mem_map.mp hmem
          obtain ⟨hn, -⟩ := mergeExtra_names rest (d.name :: seen) c hc
          exact hn (hname ▸ List.mem_cons_self d.name seen)

/-- Claim C10: `mergeCookies` yields pairwise-distinct cookie names, drops nil
cookies and cookies with empty names, and a non-empty session contributes a
leading `BREEZESESSION` cookie with exactly the session value that shadows any
`BREEZESESSION` in the extras. -/
theorem claim_C10 (session : String) (extra : List (Option Cookie)) :
    ((mergeCookies session extra).map Cookie.name).Nodup
    ∧ (∀ c ∈ mergeCookies session extra, c.name ≠ "")
    ∧ (∀ seen rest, mergeExtra seen (none :: rest) = mergeExtra seen rest)
    ∧ (∀ seen (d : Cookie) rest, d.name = "" →
        mergeExtra seen (some d :: rest) = mergeExtra seen rest)
    ∧ (session ≠ "" →
        (mergeCookies session extra).head? = some { name := "BREEZESESSION", value := session }
        ∧ ∀ c ∈ (mergeCookies session extra).tail, c.name ≠ "BREEZESESSION") := by
  refine ⟨?_, ?_, fun seen rest => rfl, ?_, ?_⟩
  · unfold mergeCookies
    split
    · exact mergeExtra_nodup extra []
    · rw [List.map_cons, List.nodup_cons]
      refine ⟨?_, mergeExtra_nodup extra ["BREEZESESSION"]⟩
      intro hmem
      obtain ⟨c, hc, hname⟩ := List.mem_map.mp hmem
      obtain ⟨hn, -⟩ := mergeExtra_names extra ["BREEZESESSION"] c hc
      exact hn (by rw [hname]; exact List.mem_singleton.mpr rfl)
  · intro c hc
    unfold mergeCookies at hc
    split at hc
    · exact (mergeExtra_names extra [] c hc).2
    · rcases List.mem_cons.mp hc with h | h
      · subst h; simp
      · exact (mergeExtra_names extra ["BREEZESESSION"] c h).2
  · intro seen d rest hd
    rw [mergeExtra, if_pos hd]
  · intro hs
    unfold mergeCookies
    rw [if_neg hs]
    refine ⟨rfl, ?_⟩
    intro c hc
    obtain ⟨hn, -⟩ := mergeExtra_names extra ["BREEZESESSION"] c hc
    intro he
    exact hn (by rw [he]; exact List.mem_singleton.mpr rfl)

/-- Witness for C10: with session `"tok"`, the merged list starts with the
session cookie and no later cookie reuses its name. -/
theorem claim_C10_witness :
    (mergeCookies "tok" [some { name := "A", value := "1" }]).head? =
      some { name := "BREEZESESSION", value := "tok" }
    ∧ ∀ c ∈ (mergeCookies "tok" [some { name := "A", value := "1" }]).tail,
        c.name ≠ "BREEZESESSION" :=
  (claim_C10 "tok" [some { name := "A", value := "1" }]).2.2.2.2 (by decide)

/-! ## Claims C5 and C6: the `downloadFile` status and size checks -/

/-- Claim C5 (amended): status 403 yields the distinct forbidden error,
status 404 yields the not-found value, any other status ≥ 300 yields the
generic unexpected-status error; statuses below 300 never yield the forbidden
or unexpected-status errors, but the not-found value can still arise below
300 — exactly when the response is detected as HTML. -/
theorem claim_C5 (kind : FileKind) (resp : RespM) :
    (resp.status = 403 → downloadFile kind resp = .error .forbidden)
    ∧ (resp.status = 404 → downloadFile kind resp = .error .notFound)
    ∧ (300 ≤ resp.status → resp.status ≠ 403 → resp.status ≠ 404 →
        downloadFile kind resp = .error (.unexpectedStatus resp.status))
    ∧ (resp.status < 300 →
        downloadFile kind resp ≠ .error .forbidden
        ∧ (∀ code, downloadFile kind resp ≠ .error (.unexpectedStatus code))
        ∧ (downloadFile kind resp = .error .notFound →
            isHTMLResponse resp.contentType (resp.body.take 4096) = true)) := by
  refine ⟨?_, ?_, ?_, ?_⟩
  · intro h; rw [downloadFile, if_pos h]
  · intro h; rw [downloadFile, if_neg (by omega), if_pos h]
  · intro h h1 h2; rw [downloadFile, if_neg h1, if_neg h2, if_pos h]
  · intro h
    rw [downloadFile, if_neg (by omega), if_neg (by omega), if_neg (by omega)]
    refine ⟨?_, ?_, ?_⟩
    · split_ifs <;> simp
    · intro code; split_ifs <;> simp
    · intro hnf
      split_ifs at hnf with h1 h2 h3 h4 <;> simp_all

/-- Witness for C5: a 403 response is classified as the forbidden error. -/
theorem claim_C5_witness :
    downloadFile .zip { status := 403, contentType := "", body := [] } = .error .forbidden :=
  (claim_C5 .zip { status := 403, contentType := "", body := [] }).1 rfl

/-- Counterexample to C5 as stated: at status 200 (below 300) with an HTML
content type, `downloadFile` still returns the not-found error value, so
statuses below 300 are not free of the three errors. -/
theorem claim_C5_cex :
    downloadFile .binary { status := 200, contentType := "text/html", body := [] } =
      .error .notFound := rfl

/-- Claim C6: a video download that passed the status, content-type and HTML
checks fails (as a likely error page) exactly when fewer than 1024 bytes were
written, and succeeds at 1024 bytes or more. -/
theorem claim_C6 (resp : RespM) (hst : resp.status < 300)
    (hct : strContainsB resp.contentType "text/html" = false)
    (hhtml : isHTMLResponse resp.contentType (resp.body.take 4096) = false) :
    (downloadFile .video resp = .error (.tooSmall resp.body.length) ↔
      resp.body.length < 1024)
    ∧ (1024 ≤ resp.body.length → downloadFile .video resp = .ok resp.body.length)
    ∧ (resp.body.length < 1024 →
        downloadFile .video resp = .error (.tooSmall resp.body.length)) := by
  have hred : downloadFile .video resp =
      if FileKind.video = FileKind.video ∧ resp.body.length < 1024 then
        .error (.tooSmall resp.body.length)
      else .ok resp.body.length := by
    rw [downloadFile, if_neg (by omega), if_neg (by omega), if_neg (by omega),
      if_neg (by simp [hct]), if_neg (by simp [hhtml]), if_neg (by rintro ⟨h, -⟩; cases h)]
  refine ⟨?_, ?_, ?_⟩
  · rw [hred]
    by_cases h : resp.body.length < 1024
    · simp [h]
    · simp [h]
  · intro h; rw [hred, if_neg (by omega)]
  · intro h; rw [hred, if_pos ⟨rfl, h⟩]

set_option maxRecDepth 100000 in
/-- Witness for C6: a 1024-byte video body passes the threshold. -/
theorem claim_C6_witness :
    downloadFile .video
        { status := 200, contentType := "video/mp4", body := List.replicate 1024 7 } =
      .ok (List.replicate 1024 7).length :=
  (claim_C6 { status := 200, contentType := "video/mp4", body := List.replicate 1024 7 }
    (by decide) (by decide) (by decide)).2.1 (by simp)

/-! ## Claim C7: pool submission and the completion callback -/

/-- Claim C7 (amended): on a pool that has not been stopped, `Submit` never
drops the job (a full queue blocks the sender, modelled as an unconditional
enqueue) and the job's callback fires exactly once, carrying the job's
resulting error — `nil` on success, the context error for a pre-cancelled
job.  (On a stopped pool `Submit` instead rejects the job and the callback
never fires; see the counterexample.) -/
theorem claim_C7 (p : PoolStateM) (job : PoolJob) (execErr : Option String)
    (h : p.stopped = false) :
    (Submit p job).2 = true
    ∧ (Submit p job).1.queue = p.queue ++ [job]
    ∧ submittedCallbackCount p job execErr = 1
    ∧ (processJob job execErr).callbackArgs =
        [if job.ctxCancelled = true then some ctxCanceledText else execErr] := by
  have hs : Submit p job = ({ p with queue := p.queue ++ [job] }, true) := by
    rw [Submit, if_neg (by simp [h])]
  have hargs : (processJob job execErr).callbackArgs =
      [if job.ctxCancelled = true then some ctxCanceledText else execErr] := by
    rw [processJob.eq_def]
    by_cases hc : job.ctxCancelled = true
    · rw [if_pos hc, if_pos hc]
    · rw [if_neg hc, if_neg hc]
      cases execErr <;> rfl
  refine ⟨by rw [hs], by rw [hs], ?_, hargs⟩
  rw [submittedCallbackCount, hs]
  simp [hargs]

/-- Witness for C7: on a running pool the job is enqueued and its callback
fires exactly once. -/
theorem claim_C7_witness :
    submittedCallbackCount { stopped := false, queue := [] }
      { ctxCancelled := false, isExtract := false } none = 1 :=
  (claim_C7 { stopped := false, queue := [] } { ctxCancelled := false, isExtract := false }
    none rfl).2.2.1

/-- Counterexample to C7 as stated: on a pool on which `Stop` has been called,
`Submit` returns `false` without enqueuing the job, so the job's completion
callback fires zero times, not exactly once. -/
theorem claim_C7_cex :
    Submit { stopped := true, queue := [] } { ctxCancelled := false, isExtract := false } =
      ({ stopped := true, queue := [] }, false)
    ∧ submittedCallbackCount { stopped := true, queue := [] }
        { ctxCancelled := false, isExtract := false } none = 0 :=
  ⟨rfl, rfl⟩

/-! ## Facts about the `Download` orchestration -/

theorem zipPhase_notFound (r c : Bool) :
    zipPhase (.error .notFound) r c =
      { pathSet := false, warn := some zipNotAvailWarn, failed := true, removedTemp := true } :=
  rfl

theorem zipPhase_invalidZip (r c : Bool) :
    zipPhase (.error .invalidZip) r c =
      { pathSet := false, warn := some zipInvalidWarn, failed := true, removedTemp := true } :=
  rfl

theorem zipPhase_warn_cases (o : Except DlErr Nat) (r c : Bool) :
    (zipPhase o r c).warn = none ∨ (zipPhase o r c).warn = some zipNotAvailWarn ∨
      (zipPhase o r c).warn = some zipInvalidWarn := by
  cases o with
  | error e =>
    by_cases h1 : e = DlErr.notFound
    · subst h1; simp [zipPhase]
    · by_cases h2 : e = DlErr.invalidZip
      · subst h2; simp [zipPhase]
      · simp [zipPhase, h1, h2]
  | ok n =>
    by_cases hr : r = true
    · simp [zipPhase, hr]
    · by_cases hc : c = true
      · simp [zipPhase, hr, hc]
      · simp [zipPhase, hr, hc]

theorem assembleMain_MP4Path (rootDir title : String) (zp : ZipPhaseRes) (ms eo mo : Bool) :
    (assembleMain rootDir title zp ms eo mo).result.MP4Path = mp4PathVal rootDir ms := by
  rw [assembleMain]; split <;> rfl

theorem assembleMain_ZipPath (rootDir title : String) (zp : ZipPhaseRes) (ms eo mo : Bool) :
    (assembleMain rootDir title zp ms eo mo).result.ZipPath = zipPathVal rootDir zp := by
  rw [assembleMain]; split <;> rfl

theorem assembleMain_err (rootDir title : String) (zp : ZipPhaseRes) (ms eo mo : Bool) :
    (assembleMain rootDir title zp ms eo mo).err =
      if mp4PathVal rootDir ms = "" ∧ zipPathVal rootDir zp = "" then some noAssetsText
      else none := by
  rw [assembleMain]; split <;> rename_i h <;> simp [h]

theorem assembleMain_warnings (rootDir title : String) (zp : ZipPhaseRes) (ms eo mo : Bool) :
    ∃ rest, (assembleMain rootDir title zp ms eo mo).result.Warnings =
        baseWarnings rootDir zp ms ++ rest ∧ ∀ w ∈ rest, w = metadataWriteWarnText := by
  rw [assembleMain]; split
  · exact ⟨[], by simp, by simp⟩
  · refine ⟨if mo = true then [] else [metadataWriteWarnText], rfl, ?_⟩
    split <;> simp

/-- The behaviour of the main flow's assembly, for a ZIP phase whose warning is
one of the two classified warnings or absent (as `zipPhase` guarantees). -/
theorem assembleMain_spec (rootDir title : String) (zp : ZipPhaseRes) (ms eo mo : Bool)
    (hwc : zp.warn = none ∨ zp.warn = some zipNotAvailWarn ∨ zp.warn = some zipInvalidWarn) :
    (((assembleMain rootDir title zp ms eo mo).result.MP4Path = "" ∧
        (assembleMain rootDir title zp ms eo mo).result.ZipPath = "") ↔
      (assembleMain rootDir title zp ms eo mo).err = some noAssetsText)
    ∧ ((assembleMain rootDir title zp ms eo mo).result.MP4Path ≠ "" ∨
        (assembleMain rootDir title zp ms eo mo).result.ZipPath ≠ "" →
        (assembleMain rootDir title zp ms eo mo).err = none)
    ∧ ((assembleMain rootDir title zp ms eo mo).result.MP4Path = "" →
        mp4NotAvailWarn ∈ (assembleMain rootDir title zp ms eo mo).result.Warnings)
    ∧ ((assembleMain rootDir title zp ms eo mo).result.MP4Path ≠ "" →
        mp4NotAvailWarn ∉ (assembleMain rootDir title zp ms eo mo).result.Warnings)
    ∧ (ms = true → (assembleMain rootDir title zp ms eo mo).result.MP4Path ≠ "")
    ∧ (zp.pathSet = true → (assembleMain rootDir title zp ms eo mo).result.ZipPath ≠ "")
    ∧ (∀ w, zp.pathSet = false → zp.warn = some w →
        (assembleMain rootDir title zp ms eo mo).result.ZipPath = ""
        ∧ w ∈ (assembleMain rootDir title zp ms eo mo).result.Warnings) := by
  have hmp := assembleMain_MP4Path rootDir title zp ms eo mo
  have hzp := assembleMain_ZipPath rootDir title zp ms eo mo
  have herr := assembleMain_err rootDir title zp ms eo mo
  obtain ⟨rest, hwarn, hrest⟩ := assembleMain_warnings rootDir title zp ms eo mo
  rw [hmp, hzp, herr, hwarn]
  refine ⟨?_, ?_, ?_, ?_, ?_, ?_, ?_⟩
  · by_cases hc : mp4PathVal rootDir ms = "" ∧ zipPathVal rootDir zp = ""
    · simp [hc]
    · simp [hc]
  · intro h
    rw [if_neg (fun hc => by rcases h with h | h; exacts [h hc.1, h hc.2])]
  · intro h
    apply List.mem_append_left
    rw [baseWarnings, if_pos h]
    exact List.mem_append_right _ (List.mem_singleton.mpr rfl)
  · intro h hmem
    rcases List.mem_append.mp hmem with h1 | h1
    · rw [baseWarnings, if_neg h] at h1
      rcases hwc with hw | hw | hw <;> rw [hw] at h1 <;> simp at h1
      · exact absurd h1 (by decide)
      · exact absurd h1 (by decide)
    · exact absurd (hrest _ h1) (by decide)
  · intro hms
    rw [mp4PathVal, if_pos hms]
    exact filepathJoin_ne_empty _ _ (by rintro ⟨-, h2⟩; exact absurd h2 (by decide))
  · intro hps
    rw [zipPathVal, if_pos hps]
    exact filepathJoin_ne_empty _ _ (by rintro ⟨-, h2⟩; exact absurd h2 (by decide))
  · intro w hps hw
    constructor
    · rw [zipPathVal, if_neg (by simp [hps])]
    · apply List.mem_append_left
      rw [baseWarnings, hw]
      exact List.mem_append_left _ (List.mem_singleton.mpr rfl)

/-- Once the page fetch is not auth-classified, the directory is available and
`MkdirAll` succeeds, `Download` is the main flow on the resolved title and
page info. -/
theorem Download_eq_mainFlow (env : DownloadEnvM) (hauth : pageAuthFailed env = false)
    (hdir : ¬(env.overwrite = false ∧ env.dirNonEmpty = true)) (hmk : env.mkdirOk = true) :
    Download env = mainFlow env (resolvedTitle env) (pageInfoOf env) := by
  have hmain : ∀ t i, downloadMainM env t i = mainFlow env t i := by
    intro t i
    rw [downloadMainM, if_neg hdir, if_neg (by simp [hmk])]
  unfold Download resolvedTitle pageInfoOf
  unfold pageAuthFailed at hauth
  cases hp : fetchPageInfo env.pageNetErr env.pageStatus env.page with
  | error e =>
    cases e with
    | authRequired => rw [hp] at hauth; simp at hauth
    | netFailure => simp only [hp]; exact hmain _ _
    | unexpectedStatus code => simp only [hp]; exact hmain _ _
  | ok info => simp only [hp]; exact hmain _ _

/-- When the ZIP phase failed with a classified warning, the result carries
that warning and no archive path. -/
theorem download_zip_classified (env : DownloadEnvM) (hauth : pageAuthFailed env = false)
    (hdir : ¬(env.overwrite = false ∧ env.dirNonEmpty = true)) (hmk : env.mkdirOk = true)
    (w : String)
    (hps : (zipPhase (zipOutcomeOf env) env.zipRenameOk env.zipCopyOk).pathSet = false)
    (hw : (zipPhase (zipOutcomeOf env) env.zipRenameOk env.zipCopyOk).warn = some w) :
    (Download env).result.ZipPath = "" ∧ w ∈ (Download env).result.Warnings := by
  rw [Download_eq_mainFlow env hauth hdir hmk, mainFlow]
  exact (assembleMain_spec (rootDirOf env (resolvedTitle env)) (resolvedTitle env)
    (zipPhase (zipOutcomeOf env) env.zipRenameOk env.zipCopyOk)
    (mp4Installed env (pageInfoOf env)) env.extractOk env.metadataWriteOk
    (zipPhase_warn_cases (zipOutcomeOf env) env.zipRenameOk env.zipCopyOk)).2.2.2.2.2.2
    w hps hw

/-! ## Claim C1: fatal only when both assets are missing -/

/-- Claim C1 (amended): on a run that reaches the asset phase, the terminal
empty-result error occurs exactly when both the MP4 and the ZIP paths end
empty; one installed asset means success; a missing MP4 is always recorded as
a warning, and never warned about when the MP4 is installed; an installed
asset's field is populated; and a missing archive is recorded as a warning
when its failure classified as not-found or invalid-content (generic archive
failures leave the path empty with no warning — see the counterexample). -/
theorem claim_C1 (env : DownloadEnvM) (hauth : pageAuthFailed env = false)
    (hdir : ¬(env.overwrite = false ∧ env.dirNonEmpty = true)) (hmk : env.mkdirOk = true) :
    (((Download env).result.MP4Path = "" ∧ (Download env).result.ZipPath = "") ↔
      (Download env).err = some noAssetsText)
    ∧ ((Download env).result.MP4Path ≠ "" ∨ (Download env).result.ZipPath ≠ "" →
        (Download env).err = none)
    ∧ ((Download env).result.MP4Path = "" → mp4NotAvailWarn ∈ (Download env).result.Warnings)
    ∧ ((Download env).result.MP4Path ≠ "" → mp4NotAvailWarn ∉ (Download env).result.Warnings)
    ∧ (mp4Installed env (pageInfoOf env) = true → (Download env).result.MP4Path ≠ "")
    ∧ ((zipPhase (zipOutcomeOf env) env.zipRenameOk env.zipCopyOk).pathSet = true →
        (Download env).result.ZipPath ≠ "")
    ∧ (zipOutcomeOf env = .error .notFound →
        (Download env).result.ZipPath = "" ∧ zipNotAvailWarn ∈ (Download env).result.Warnings)
    ∧ (zipOutcomeOf env = .error .invalidZip →
        (Download env).result.ZipPath = "" ∧ zipInvalidWarn ∈ (Download env).result.Warnings) := by
  have hspec := assembleMain_spec (rootDirOf env (resolvedTitle env)) (resolvedTitle env)
    (zipPhase (zipOutcomeOf env) env.zipRenameOk env.zipCopyOk)
    (mp4Installed env (pageInfoOf env)) env.extractOk env.metadataWriteOk
    (zipPhase_warn_cases (zipOutcomeOf env) env.zipRenameOk env.zipCopyOk)
  rw [Download_eq_mainFlow env hauth hdir hmk, mainFlow]
  obtain ⟨ha, hb, hc, hd, hf, hg, he⟩ := hspec
  refine ⟨ha, hb, hc, hd, hf, hg, ?_, ?_⟩
  · intro hz
    have h1 : zipPhase (zipOutcomeOf env) env.zipRenameOk env.zipCopyOk =
        { pathSet := false, warn := some zipNotAvailWarn, failed := true, removedTemp := true } := by
      rw [hz]; exact zipPhase_notFound _ _
    exact he zipNotAvailWarn (by rw [h1]) (by rw [h1])
  · intro hz
    have h1 : zipPhase (zipOutcomeOf env) env.zipRenameOk env.zipCopyOk =
        { pathSet := false, warn := some zipInvalidWarn, failed := true, removedTemp := true } := by
      rw [hz]; exact zipPhase_invalidZip _ _
    exact he zipInvalidWarn (by rw [h1]) (by rw [h1])

/-- Witness for C1: a 404 archive beside a successful video yields success
with the not-available warning. -/
theorem claim_C1_witness :
    (Download envZipNotFound).result.ZipPath = ""
    ∧ zipNotAvailWarn ∈ (Download envZipNotFound).result.Warnings :=
  (claim_C1 envZipNotFound (by decide) (by decide) (by decide)).2.2.2.2.2.2.1 rfl

set_option maxRecDepth 400000 in
/-- Counterexample to C1 as stated: when the archive download fails with a
generic 403 while the video succeeds, `Download` returns success with the
archive path empty and an empty warning list — the missing archive is *not*
recorded as a warning. -/
theorem claim_C1_cex :
    (Download envZipForbidden).err = none
    ∧ (Download envZipForbidden).result.ZipPath = ""
    ∧ (Download envZipForbidden).result.MP4Path ≠ ""
    ∧ (Download envZipForbidden).result.Warnings = [] := by
  refine ⟨rfl, rfl, by decide, rfl⟩

/-! ## Claim C2: the authentication-required early exit -/

/-- Claim C2: a page fetch answering 401, 403 or 500 classifies as the
authentication-required error; `Download` then returns the terminal error
whose message contains the session-token guidance, after removing the staged
temp archive and waiting for the in-flight archive download; the output
directory is never created and nothing is written under it. -/
theorem claim_C2 (env : DownloadEnvM) (hnet : env.pageNetErr = false)
    (hst : env.pageStatus = 500 ∨ env.pageStatus = 401 ∨ env.pageStatus = 403) :
    fetchPageInfo env.pageNetErr env.pageStatus env.page = .error .authRequired
    ∧ Download env = authOutcome
    ∧ authOutcome.err = some authErrorMessage
    ∧ strContains authErrorMessage "session token"
    ∧ authOutcome.removedTempZip = true
    ∧ authOutcome.waitedZipDone = true
    ∧ authOutcome.createdRootDir = false
    ∧ authOutcome.finalWrites = [] := by
  have hf : fetchPageInfo env.pageNetErr env.pageStatus env.page = .error .authRequired := by
    rw [fetchPageInfo, if_neg (by simp [hnet]), if_pos hst]
  refine ⟨hf, ?_, rfl, ?_, rfl, rfl, rfl, rfl⟩
  · unfold Download
    rw [hf]
  · exact ⟨"authentication required: this recording requires a valid ", authGuidanceText, rfl⟩

/-- Witness for C2: a 401 page fetch aborts with the auth outcome. -/
theorem claim_C2_witness :
    fetchPageInfo envAuth401.pageNetErr envAuth401.pageStatus envAuth401.page =
      .error .authRequired
    ∧ Download envAuth401 = authOutcome :=
  ⟨(claim_C2 envAuth401 rfl (Or.inr (Or.inl rfl))).1,
    (claim_C2 envAuth401 rfl (Or.inr (Or.inl rfl))).2.1⟩

/-! ## Claim C3: the pre-existing non-empty directory early exit -/

/-- Claim C3: without the overwrite option, a non-empty existing destination
directory makes `Download` fail with the already-exists error before creating
the directory or writing any file under it, with the staged temp archive
removed and the in-flight archive download awaited. -/
theorem claim_C3 (env : DownloadEnvM) (hauth : pageAuthFailed env = false)
    (hov : env.overwrite = false) (hne : env.dirNonEmpty = true) :
    Download env =
      { result := { Title := resolvedTitle env,
                    RootDir := rootDirOf env (resolvedTitle env), MP4Path := "",
                    ZipPath := "", ExtractedDir := "", Warnings := [] },
        err := some (dirExistsText ++ ": " ++ rootDirOf env (resolvedTitle env)),
        removedTempZip := true, waitedZipDone := true, createdRootDir := false,
        finalWrites := [] } := by
  have hmain : ∀ t i, downloadMainM env t i =
      { result := { Title := t, RootDir := rootDirOf env t, MP4Path := "",
                    ZipPath := "", ExtractedDir := "", Warnings := [] },
        err := some (dirExistsText ++ ": " ++ rootDirOf env t),
        removedTempZip := true, waitedZipDone := true, createdRootDir := false,
        finalWrites := [] } := by
    intro t i
    rw [downloadMainM, if_pos ⟨hov, hne⟩]
  unfold Download resolvedTitle
  unfold pageAuthFailed at hauth
  cases hp : fetchPageInfo env.pageNetErr env.pageStatus env.page with
  | error e =>
    cases e with
    | authRequired => rw [hp] at hauth; simp at hauth
    | netFailure => simp only [hp]; exact hmain _ _
    | unexpectedStatus code => simp only [hp]; exact hmain _ _
  | ok info => simp only [hp]; exact hmain _ _

/-- Witness for C3: a concrete conflicting run fails with the already-exists
error and writes nothing. -/
theorem claim_C3_witness :
    Download envDirConflict =
      { result := { Title := resolvedTitle envDirConflict,
                    RootDir := rootDirOf envDirConflict (resolvedTitle envDirConflict),
                    MP4Path := "", ZipPath := "", ExtractedDir := "", Warnings := [] },
        err := some (dirExistsText ++ ": " ++
          rootDirOf envDirConflict (resolvedTitle envDirConflict)),
        removedTempZip := true, waitedZipDone := true, createdRootDir := false,
        finalWrites := [] } :=
  claim_C3 envDirConflict (by decide) rfl rfl

/-! ## Claim C4: the archive signature check -/

/-- Claim C4 (amended): an archive response (status below 300, not detected as
HTML) whose body holds at least four bytes and does not begin with the magic
`'P' 'K' 0x03 0x04` fails with the invalid-content error, and the run then
ends with no archive path and the invalid-content warning.  Bodies shorter
than four bytes bypass the signature check (see the counterexample). -/
theorem claim_C4 (env : DownloadEnvM) (hauth : pageAuthFailed env = false)
    (hdir : ¬(env.overwrite = false ∧ env.dirNonEmpty = true)) (hmk : env.mkdirOk = true)
    (hznet : env.zipNetErr = false)
    (hst : env.zipResp.status < 300)
    (hhtml : isHTMLResponse env.zipResp.contentType (env.zipResp.body.take 4096) = false)
    (hlen : 4 ≤ env.zipResp.body.length)
    (hsig : isZipSignature (env.zipResp.body.take 4096) = false) :
    downloadFile .zip env.zipResp = .error .invalidZip
    ∧ (Download env).result.ZipPath = ""
    ∧ zipInvalidWarn ∈ (Download env).result.Warnings := by
  have hdl : downloadFile .zip env.zipResp = .error .invalidZip := by
    rw [downloadFile, if_neg (by omega), if_neg (by omega), if_neg (by omega),
      if_neg (by rintro ⟨h, -⟩; cases h), if_neg (by simp [hhtml]),
      if_pos ⟨rfl, by rw [List.length_take]; omega, hsig⟩]
  have hz : zipOutcomeOf env = .error .invalidZip := by
    rw [zipOutcomeOf, if_neg (by simp [hznet]), hdl]
  have h1 : zipPhase (zipOutcomeOf env) env.zipRenameOk env.zipCopyOk =
      { pathSet := false, warn := some zipInvalidWarn, failed := true, removedTemp := true } := by
    rw [hz]; exact zipPhase_invalidZip _ _
  exact ⟨hdl, download_zip_classified env hauth hdir hmk zipInvalidWarn
    (by rw [h1]) (by rw [h1])⟩

/-- Witness for C4: a five-byte body with a wrong signature is rejected and
recorded as the invalid-content warning. -/
theorem claim_C4_witness :
    downloadFile .zip envZipBadSig.zipResp = .error .invalidZip
    ∧ (Download envZipBadSig).result.ZipPath = ""
    ∧ zipInvalidWarn ∈ (Download envZipBadSig).result.Warnings :=
  claim_C4 envZipBadSig (by decide) (by decide) (by decide) rfl (by decide) (by decide)
    (by decide) (by decide)

/-- Counterexample to C4 as stated: a two-byte archive body (`'P' 'K'`) does
not begin with the four magic bytes, yet `downloadFile` accepts it because the
signature check is guarded by `n >= 4`; the orchestrator then installs the
archive path and records no invalid-content warning. -/
theorem claim_C4_cex :
    downloadFile .zip { status := 200, contentType := "application/zip", body := [80, 75] } =
      .ok 2
    ∧ (Download envZipShortBody).result.ZipPath ≠ ""
    ∧ zipInvalidWarn ∉ (Download envZipShortBody).result.Warnings
    ∧ (Download envZipShortBody).err = none := by
  refine ⟨rfl, by decide, by decide, rfl⟩

end AdobeConnectDL
